import Mathlib

/-!
Verification development for the FinFlow transaction retrieval and
attachment-management engine.  The definitions below are a shallow
embedding of the JavaScript source: the filter compiler
(`src/services/transaction.filters.js`), the transaction query service
(`fetchTransactions`), and the add/update/delete mutation handlers of the
transactions router.  Stateful code (MySQL tables, the upload directory on
disk) is embedded as explicit state passing over lists of rows and a list
of file paths; fallible handlers return an `ApiResult` alongside the final
state.
-/

namespace FinFlow

/-- A bound SQL parameter: either a string value or a numeric value. -/
inductive Param where
  | str : String → Param
  | num : Int → Param
deriving DecidableEq, Repr

/-- The filter portion of a list request, as received by
`buildTransactionFilters` (all fields independently optional; category ids
are already normalized to numbers by the controller). -/
structure FilterInput where
  startDate : Option String
  endDate : Option String
  categoryIds : List Nat
  type : Option String
  minAmount : Option Int
  maxAmount : Option Int
  search : Option String
deriving DecidableEq, Repr

/-- JavaScript truthiness of an optional string: `undefined` and the empty
string are falsy (`if (startDate)` in the source). -/
def truthyStr : Option String → Bool
  | some s => s ≠ ""
  | none => false

/-- JavaScript `Array.prototype.join(sep)`. -/
def joinWith (sep : String) : List String → String
  | [] => ""
  | [x] => x
  | x :: y :: xs => x ++ sep ++ joinWith sep (y :: xs)

/-- `categoryIds.map(() => "?").join(",")` from the source: one `?`
placeholder per category id. -/
def inPlaceholders (ids : List Nat) : String :=
  joinWith "," (ids.map fun _ => "?")

/-- The `conditions` array built by `buildTransactionFilters`: one SQL
clause per present filter, in source emission order. -/
def conditions (f : FilterInput) : List String :=
  (if truthyStr f.startDate then ["t.trn_date >= ?"] else []) ++
  (if truthyStr f.endDate then ["t.trn_date <= ?"] else []) ++
  (if f.categoryIds.length > 0 then
    ["t.category_id IN (" ++ inPlaceholders f.categoryIds ++ ")"] else []) ++
  (if truthyStr f.type then ["c.type = ?"] else []) ++
  (if f.minAmount.isSome then ["t.amount >= ?"] else []) ++
  (if f.maxAmount.isSome then ["t.amount <= ?"] else []) ++
  (if truthyStr f.search then ["(t.note LIKE ? OR c.name LIKE ?)"] else [])

/-- The `%search%` LIKE pattern built by the source. -/
def searchPattern (s : String) : String := "%" ++ s ++ "%"

/-- The `params` array built by `buildTransactionFilters`, pushed in the
same order as the clauses of `conditions`. -/
def filterParams (f : FilterInput) : List Param :=
  (if truthyStr f.startDate then [Param.str (f.startDate.getD "")] else []) ++
  (if truthyStr f.endDate then [Param.str (f.endDate.getD "")] else []) ++
  (if f.categoryIds.length > 0 then
    f.categoryIds.map (fun i => Param.num (Int.ofNat i)) else []) ++
  (if truthyStr f.type then [Param.str (f.type.getD "")] else []) ++
  (if f.minAmount.isSome then [Param.num (f.minAmount.getD 0)] else []) ++
  (if f.maxAmount.isSome then [Param.num (f.maxAmount.getD 0)] else []) ++
  (if truthyStr f.search then
    [Param.str (searchPattern (f.search.getD "")),
     Param.str (searchPattern (f.search.getD ""))] else [])

/-- The `whereClause` string returned by `buildTransactionFilters`:
empty when no condition was emitted, otherwise `" AND "` followed by the
conditions joined with `" AND "`. -/
def whereClause (f : FilterInput) : String :=
  if conditions f = [] then "" else " AND " ++ joinWith " AND " (conditions f)

/-- `buildTransactionFilters` from `src/services/transaction.filters.js`:
returns the predicate fragment and the ordered bound-parameter list. -/
def buildTransactionFilters (f : FilterInput) : String × List Param :=
  (whereClause f, filterParams f)

/-- The shape of a filter request: which filters are present (and how many
category ids), ignoring the filter values themselves. -/
structure FilterShape where
  hasStart : Bool
  hasEnd : Bool
  numCategoryIds : Nat
  hasType : Bool
  hasMin : Bool
  hasMax : Bool
  hasSearch : Bool
deriving DecidableEq, Repr

/-- Computes the shape of a filter request. -/
def filterShape (f : FilterInput) : FilterShape :=
  ⟨truthyStr f.startDate, truthyStr f.endDate, f.categoryIds.length,
   truthyStr f.type, f.minAmount.isSome, f.maxAmount.isSome,
   truthyStr f.search⟩

/-- Number of `?` placeholders occurring in a string. -/
def countQ (s : String) : Nat := s.toList.count '?'

theorem countQ_append (a b : String) : countQ (a ++ b) = countQ a + countQ b := by
  unfold countQ
  rw [show (a ++ b).toList = a.toList ++ b.toList by simp [String.toList]]
  exact List.count_append _ _ _

theorem countQ_sep : countQ " AND " = 0 := by decide

theorem countQ_comma : countQ "," = 0 := by decide

theorem countQ_qmark : countQ "?" = 1 := by decide

theorem countQ_d1 : countQ "t.trn_date >= ?" = 1 := by decide

theorem countQ_d2 : countQ "t.trn_date <= ?" = 1 := by decide

theorem countQ_ty : countQ "c.type = ?" = 1 := by decide

theorem countQ_a1 : countQ "t.amount >= ?" = 1 := by decide

theorem countQ_a2 : countQ "t.amount <= ?" = 1 := by decide

theorem countQ_se : countQ "(t.note LIKE ? OR c.name LIKE ?)" = 2 := by decide

theorem countQ_inpre : countQ "t.category_id IN (" = 0 := by decide

theorem countQ_inpost : countQ ")" = 0 := by decide

theorem countQ_joinWith (sep : String) (hsep : countQ sep = 0) (l : List String) :
    countQ (joinWith sep l) = (l.map countQ).sum := by
  induction l with
  | nil => simp [joinWith, countQ]
  | cons x xs ih =>
    cases xs with
    | nil => simp [joinWith]
    | cons y ys =>
      simp only [joinWith, List.map_cons, List.sum_cons] at ih ⊢
      rw [countQ_append, countQ_append, hsep, ih]
      omega

theorem map_const_qmark (l : List Nat) :
    l.map (fun _ => "?") = List.replicate l.length "?" := by
  induction l with
  | nil => rfl
  | cons x xs ih => simp [List.replicate, ih]

theorem countQ_inPlaceholders (ids : List Nat) :
    countQ (inPlaceholders ids) = ids.length := by
  unfold inPlaceholders
  rw [countQ_joinWith "," countQ_comma]
  induction ids with
  | nil => rfl
  | cons x xs ih =>
    simp only [List.map_cons, List.sum_cons, countQ_qmark, ih, List.length_cons]
    omega

theorem countQ_inClause (ids : List Nat) :
    countQ ("t.category_id IN (" ++ inPlaceholders ids ++ ")") = ids.length := by
  rw [countQ_append, countQ_append, countQ_inPlaceholders, countQ_inpre, countQ_inpost]
  omega

/-- Clause/parameter balance for each emitted chunk, summed. -/
theorem clause_param_balance (f : FilterInput) :
    ((conditions f).map countQ).sum = (filterParams f).length := by
  unfold conditions filterParams
  by_cases h1 : truthyStr f.startDate = true <;>
  by_cases h2 : truthyStr f.endDate = true <;>
  by_cases h3 : f.categoryIds.length > 0 <;>
  by_cases h4 : truthyStr f.type = true <;>
  by_cases h5 : f.minAmount.isSome = true <;>
  by_cases h6 : f.maxAmount.isSome = true <;>
  by_cases h7 : truthyStr f.search = true <;>
  simp [h1, h2, h3, h4, h5, h6, h7, countQ_inClause, countQ_d1, countQ_d2,
    countQ_ty, countQ_a1, countQ_a2, countQ_se] <;>
  omega

theorem countQ_whereClause (f : FilterInput) :
    countQ (whereClause f) = ((conditions f).map countQ).sum := by
  unfold whereClause
  by_cases h : conditions f = []
  · simp [h]
    decide
  · rw [if_neg h, countQ_append, countQ_joinWith " AND " countQ_sep, countQ_sep]
    omega

theorem inPlaceholders_congr (l1 l2 : List Nat) (h : l1.length = l2.length) :
    inPlaceholders l1 = inPlaceholders l2 := by
  unfold inPlaceholders
  rw [map_const_qmark, map_const_qmark, h]

theorem conditions_shape_eq (f g : FilterInput)
    (h : filterShape f = filterShape g) : conditions f = conditions g := by
  unfold filterShape at h
  injection h with e1 e2 e3 e4 e5 e6 e7
  unfold conditions
  rw [e1, e2, e4, e5, e6, e7, inPlaceholders_congr f.categoryIds g.categoryIds e3, e3]

/-- Claim C4: for every filter request, the Filter Compiler never embeds a
filter value into the predicate string (the emitted predicate depends only
on the request shape, not on any filter value), and the length of the
emitted parameter list equals the number of `?` placeholders in the
emitted predicate. -/
theorem filter_compiler_safe_binding (f g : FilterInput)
    (h : filterShape f = filterShape g) :
    (buildTransactionFilters f).1 = (buildTransactionFilters g).1 ∧
    countQ (buildTransactionFilters f).1 = (buildTransactionFilters f).2.length := by
  constructor
  · unfold buildTransactionFilters whereClause
    rw [conditions_shape_eq f g h]
  · unfold buildTransactionFilters
    rw [countQ_whereClause, clause_param_balance]

/-- A concrete filter request with every filter present. -/
def shapeWitnessA : FilterInput :=
  ⟨some "2024-01-01", none, [1, 2], some "income", some 5, none, some "food"⟩

/-- A second concrete filter request with the same shape as
`shapeWitnessA` but entirely different filter values. -/
def shapeWitnessB : FilterInput :=
  ⟨some "2023-05-05", none, [7, 9], some "expense", some 100, none, some "rent"⟩

/-- Witness for C4: at two concrete same-shape, different-valued requests,
the compiled predicates coincide and placeholders match parameters. -/
theorem filter_compiler_safe_binding_witness :
    filterShape shapeWitnessA = filterShape shapeWitnessB ∧
    ((buildTransactionFilters shapeWitnessA).1 = (buildTransactionFilters shapeWitnessB).1 ∧
     countQ (buildTransactionFilters shapeWitnessA).1 =
       (buildTransactionFilters shapeWitnessA).2.length) :=
  ⟨by decide, filter_compiler_safe_binding shapeWitnessA shapeWitnessB (by decide)⟩

/-- Number of present filters in a request (the category-id set counts as
present exactly when it is non-empty). -/
def numPresent (f : FilterInput) : Nat :=
  (if truthyStr f.startDate then 1 else 0) +
  (if truthyStr f.endDate then 1 else 0) +
  (if f.categoryIds.length > 0 then 1 else 0) +
  (if truthyStr f.type then 1 else 0) +
  (if f.minAmount.isSome then 1 else 0) +
  (if f.maxAmount.isSome then 1 else 0) +
  (if truthyStr f.search then 1 else 0)

/-- Recognizes the category set-membership clause emitted by the compiler
(by its first sixteen characters). -/
def isMembershipClause (s : String) : Bool :=
  s.toList.take 16 = "t.category_id IN".toList

theorem isMembershipClause_inClause (ids : List Nat) :
    isMembershipClause ("t.category_id IN (" ++ inPlaceholders ids ++ ")") = true := by
  unfold isMembershipClause
  rw [show ("t.category_id IN (" ++ inPlaceholders ids ++ ")").toList =
      "t.category_id IN (".toList ++ (inPlaceholders ids ++ ")").toList by
    simp [String.toList]]
  rw [List.take_append_of_le_length (by decide)]
  decide

theorem conditions_length_numPresent (f : FilterInput) :
    (conditions f).length = numPresent f := by
  unfold conditions numPresent
  by_cases h1 : truthyStr f.startDate = true <;>
  by_cases h2 : truthyStr f.endDate = true <;>
  by_cases h3 : f.categoryIds.length > 0 <;>
  by_cases h4 : truthyStr f.type = true <;>
  by_cases h5 : f.minAmount.isSome = true <;>
  by_cases h6 : f.maxAmount.isSome = true <;>
  by_cases h7 : truthyStr f.search = true <;>
  simp [h1, h2, h3, h4, h5, h6, h7]

theorem whereClause_empty_iff (f : FilterInput) :
    whereClause f = "" ↔ conditions f = [] := by
  unfold whereClause
  by_cases h : conditions f = []
  · simp [h]
  · rw [if_neg h]
    constructor
    · intro hc
      have hl := congrArg String.length hc
      rw [String.length_append, show (" AND ").length = 5 from rfl,
        show ("" : String).length = 0 from rfl] at hl
      omega
    · intro hc
      exact absurd hc h

theorem notMembership_d1 : isMembershipClause "t.trn_date >= ?" = false := by decide

theorem notMembership_d2 : isMembershipClause "t.trn_date <= ?" = false := by decide

theorem notMembership_ty : isMembershipClause "c.type = ?" = false := by decide

theorem notMembership_a1 : isMembershipClause "t.amount >= ?" = false := by decide

theorem notMembership_a2 : isMembershipClause "t.amount <= ?" = false := by decide

theorem notMembership_se : isMembershipClause "(t.note LIKE ? OR c.name LIKE ?)" = false := by
  decide

/-- Claim C5: each absent filter contributes no clause (clause count equals
the number of present filters); the compiled predicate is empty exactly
when no filter is present; and the category-id set contributes exactly one
set-membership clause when non-empty and none when empty. -/
theorem absent_filters_emit_no_clause (f : FilterInput) :
    (conditions f).length = numPresent f ∧
    ((buildTransactionFilters f).1 = "" ↔ numPresent f = 0) ∧
    (conditions f).countP isMembershipClause =
      (if f.categoryIds.length > 0 then 1 else 0) := by
  refine ⟨conditions_length_numPresent f, ?_, ?_⟩
  · unfold buildTransactionFilters
    rw [show (whereClause f, filterParams f).1 = whereClause f from rfl,
      whereClause_empty_iff, ← conditions_length_numPresent f,
      List.length_eq_zero]
  · unfold conditions
    by_cases h1 : truthyStr f.startDate = true <;>
    by_cases h2 : truthyStr f.endDate = true <;>
    by_cases h3 : f.categoryIds.length > 0 <;>
    by_cases h4 : truthyStr f.type = true <;>
    by_cases h5 : f.minAmount.isSome = true <;>
    by_cases h6 : f.maxAmount.isSome = true <;>
    by_cases h7 : truthyStr f.search = true <;>
    simp [h1, h2, h3, h4, h5, h6, h7, List.countP_cons, List.countP_append,
      isMembershipClause_inClause, notMembership_d1, notMembership_d2,
      notMembership_ty, notMembership_a1, notMembership_a2, notMembership_se]

/-- A row of the `transactions` table. -/
structure TransactionRow where
  trnId : Nat
  userId : Nat
  categoryId : Nat
  amount : Int
  note : Option String
  trnDate : String
deriving DecidableEq, Repr

/-- A row of the `categories` table (fields used by the engine). -/
structure CategoryRow where
  categoryId : Nat
  name : String
  type : String
deriving DecidableEq, Repr

/-- A row of the `transaction_attachments` table. -/
structure AttachmentRow where
  attachmentId : Nat
  trnId : Nat
  fileName : String
  filePath : String
  fileType : String
  fileSize : Nat
  fileHash : String
deriving DecidableEq, Repr

/-- The relational store reached through the MySQL connection pool. -/
structure DB where
  transactions : List TransactionRow
  categories : List CategoryRow
  attachments : List AttachmentRow
deriving DecidableEq, Repr

/-- SQL `hay LIKE CONCAT(CHAR(37), pat, CHAR(37))`: substring containment
of the search pattern (source wraps the term with percent wildcards). -/
def likeContains (hay pat : String) : Bool :=
  decide (pat.toList <:+: hay.toList)

/-- The conjunction of filter clauses emitted by `buildTransactionFilters`,
as a boolean predicate over one joined (transaction, category) row; an
absent filter imposes no constraint, exactly as the absent clause does. -/
def matchesFilters (f : FilterInput) (t : TransactionRow) (c : CategoryRow) : Bool :=
  (if truthyStr f.startDate then decide (f.startDate.getD "" ≤ t.trnDate) else true) &&
  (if truthyStr f.endDate then decide (t.trnDate ≤ f.endDate.getD "") else true) &&
  (if f.categoryIds.length > 0 then f.categoryIds.contains t.categoryId else true) &&
  (if truthyStr f.type then c.type == f.type.getD "" else true) &&
  (match f.minAmount with | some m => decide (m ≤ t.amount) | none => true) &&
  (match f.maxAmount with | some m => decide (t.amount ≤ m) | none => true) &&
  (if truthyStr f.search then
    ((match t.note with | some n => likeContains n (f.search.getD "") | none => false) ||
     likeContains c.name (f.search.getD ""))
   else true)

/-- The shared filtered join of both queries in `fetchTransactions`:
`transactions t JOIN categories c ON c.category_id = t.category_id
WHERE t.user_id = ? <whereClause>` (the attachment LEFT JOIN of the main
query is collapsed by its `GROUP BY t.trn_id`). -/
def filteredJoin (db : DB) (userId : Nat) (f : FilterInput) :
    List (TransactionRow × CategoryRow) :=
  db.transactions.filterMap (fun t =>
    match db.categories.find? (fun c => c.categoryId == t.categoryId) with
    | some c => if t.userId == userId && matchesFilters f t c then some (t, c) else none
    | none => none)

/-- `ORDER BY <safeSortColumn> <order>` as a boolean comparator: the safe
sort columns are `t.amount`, `c.name` and `t.trn_date` (the default), with
`ASC` or descending order. -/
def sortLe (sortBy order : String) (a b : TransactionRow × CategoryRow) : Bool :=
  if order = "ASC" then
    if sortBy = "t.amount" then decide (a.1.amount ≤ b.1.amount)
    else if sortBy = "c.name" then decide (a.2.name ≤ b.2.name)
    else decide (a.1.trnDate ≤ b.1.trnDate)
  else
    if sortBy = "t.amount" then decide (b.1.amount ≤ a.1.amount)
    else if sortBy = "c.name" then decide (b.2.name ≤ a.2.name)
    else decide (b.1.trnDate ≤ a.1.trnDate)

/-- An attachment as shaped for the response: the stored path with
Windows separators normalized, plus the absolute URL. -/
structure EnrichedAttachment where
  id : Nat
  fileName : String
  filePath : String
  fileType : String
  fileSize : Nat
  url : String
deriving DecidableEq, Repr

/-- One transaction of the returned page. -/
structure TrnItem where
  trnId : Nat
  amount : Int
  note : Option String
  trnDate : String
  categoryId : Nat
  categoryName : String
  type : String
  attachments : List EnrichedAttachment
deriving DecidableEq, Repr

/-- Windows `\` path separators normalized to `/` (source:
`a.filePath.replace` over backslashes). -/
def cleanPath (p : String) : String :=
  String.map (fun c => if c = '\\' then '/' else c) p

/-- The attachment post-processing of `fetchTransactions`: drop entries
with an absent/empty path (the LEFT JOIN null case), normalize the path,
and build the absolute URL from the base URL. -/
def formatAttachments (db : DB) (trnId : Nat) (baseUrl : String) :
    List EnrichedAttachment :=
  ((db.attachments.filter (fun a => a.trnId == trnId)).filter
      (fun a => a.filePath ≠ "")).map
    (fun a =>
      ⟨a.attachmentId, a.fileName, cleanPath a.filePath, a.fileType, a.fileSize,
       baseUrl ++ "/" ++ cleanPath a.filePath⟩)

/-- Distinct values of a list of transaction ids (`COUNT(DISTINCT …)`). -/
def dedupNat : List Nat → List Nat
  | [] => []
  | x :: xs => let r := dedupNat xs; if x ∈ r then r else x :: r

/-- The options record passed to `fetchTransactions` by the controller. -/
structure ListOptions where
  limit : Nat
  offset : Nat
  baseUrl : String
  filters : FilterInput
  sortBy : String
  order : String
deriving Repr

/-- The value returned by `fetchTransactions`. -/
structure FetchResult where
  transactions : List TrnItem
  total : Nat
deriving DecidableEq, Repr

/-- `fetchTransactions` from `src/services/transaction.service.js`: the
main aggregate query (filtered join, sort, `LIMIT ? OFFSET ?`, attachment
aggregation and URL formatting) plus the second count query
(`COUNT(DISTINCT t.trn_id)` over the same filtered join). -/
def fetchTransactions (db : DB) (userId : Nat) (o : ListOptions) : FetchResult :=
  let base := filteredJoin db userId o.filters
  let sorted := base.mergeSort (sortLe o.sortBy o.order)
  let page := (sorted.drop o.offset).take o.limit
  let items := page.map (fun p =>
    ⟨p.1.trnId, p.1.amount, p.1.note, p.1.trnDate, p.2.categoryId, p.2.name,
     p.2.type, formatAttachments db p.1.trnId o.baseUrl⟩)
  let total := (dedupNat (base.map (fun p => p.1.trnId))).length
  ⟨items, total⟩

/-- `Math.max(0, parseInt(req.query.skip) || 0)`: the parsed value when
present and numeric (`none` models `NaN`), with `0` for the falsy cases,
clamped to be non-negative. -/
def parseSkip (q : Option Int) : Int := max 0 (q.getD 0)

/-- `Math.max(0, parseInt(req.query.take) || 10)`: note that both `NaN`
and `0` are falsy, so both fall back to the default of `10`. -/
def parseTake (q : Option Int) : Int :=
  max 0 (match q with | none => 10 | some v => if v = 0 then 10 else v)

/-- The pagination-relevant part of a `GET /transactions` request. -/
structure ListQuery where
  skip : Option Int
  take : Option Int
  filters : FilterInput
  sortBy : String
  order : String
  baseUrl : String
deriving Repr

/-- The success payload of `GET /transactions`. -/
structure ListResponse where
  data : List TrnItem
  skip : Int
  take : Int
  totalCount : Nat
  hasMore : Bool
deriving DecidableEq, Repr

/-- The `GET /transactions` handler after input validation: parse
pagination, delegate to `fetchTransactions`, and report
`hasMore: skip + take < result.total`. -/
def listEndpoint (db : DB) (userId : Nat) (q : ListQuery) : ListResponse :=
  let skip := parseSkip q.skip
  let take := parseTake q.take
  let r := fetchTransactions db userId
    ⟨take.toNat, skip.toNat, q.baseUrl, q.filters, q.sortBy, q.order⟩
  ⟨r.transactions, skip, take, r.total, skip + take < (r.total : Int)⟩

theorem dedupNat_nil_iff (l : List Nat) : dedupNat l = [] ↔ l = [] := by
  induction l with
  | nil => simp [dedupNat]
  | cons x xs ih =>
    simp only [dedupNat]
    constructor
    · intro h
      by_cases hx : x ∈ dedupNat xs
      · rw [if_pos hx] at h
        exact absurd (h ▸ hx) (List.not_mem_nil x)
      · rw [if_neg hx] at h
        exact absurd h (List.cons_ne_nil _ _)
    · intro h
      exact absurd h (List.cons_ne_nil _ _)

/-- Claim C6: `limit` and `offset` are accepted as non-negative integers
(the controller clamps negatives to 0), and a `list()` request with limit
0 is legal: it returns an empty item list together with a total count
that is nonzero exactly when matching rows exist. -/
theorem list_limit_zero_legal (db : DB) (u off : Nat) (burl sb ord : String)
    (f : FilterInput) (qs qt : Option Int) :
    0 ≤ parseSkip qs ∧ 0 ≤ parseTake qt ∧
    (fetchTransactions db u ⟨0, off, burl, f, sb, ord⟩).transactions = [] ∧
    ((fetchTransactions db u ⟨0, off, burl, f, sb, ord⟩).total = 0 ↔
      filteredJoin db u f = []) := by
  refine ⟨le_max_left 0 _, le_max_left 0 _, ?_, ?_⟩
  · simp [fetchTransactions]
  · show (dedupNat ((filteredJoin db u f).map (fun p => p.1.trnId))).length = 0 ↔ _
    rw [List.length_eq_zero, dedupNat_nil_iff, List.map_eq_nil_iff]

/-- Claim C7: the total reported by `fetchTransactions` comes from the
second count query over the same filtered join, distinct by transaction
id; it is independent of `limit` and `offset`; and the route reports
`hasMore = (skip + take < total)`. -/
theorem total_count_pagination_independent (db : DB) (u : Nat) (f : FilterInput)
    (sb ord burl : String) (l1 o1 l2 o2 : Nat) (q : ListQuery) :
    (fetchTransactions db u ⟨l1, o1, burl, f, sb, ord⟩).total =
      (fetchTransactions db u ⟨l2, o2, burl, f, sb, ord⟩).total ∧
    (fetchTransactions db u ⟨l1, o1, burl, f, sb, ord⟩).total =
      (dedupNat ((filteredJoin db u f).map (fun p => p.1.trnId))).length ∧
    (listEndpoint db u q).hasMore =
      decide (parseSkip q.skip + parseTake q.take <
        ((listEndpoint db u q).totalCount : Int)) :=
  ⟨rfl, rfl, rfl⟩

/-- Regex `^\d+$` of the controller: a non-empty all-digit string. -/
def isDigitString (s : String) : Bool :=
  s ≠ "" && s.toList.all (fun c => c.isDigit)

/-- JavaScript `Number(s)` on an all-digit string: its decimal value. -/
def digitsToNat (s : String) : Nat :=
  s.toList.foldl (fun n c => n * 10 + (c.toNat - 48)) 0

/-- The controller's categoryIds pre-step: a missing query value becomes
the empty list and a single (non-array) value is wrapped in a
one-element array. -/
def rawCategoryList : Option (Sum String (List String)) → List String
  | none => []
  | some (Sum.inl s) => [s]
  | some (Sum.inr l) => l

/-- `GET /transactions` categoryIds normalization: keep only the
all-digit values, then convert them to numbers. -/
def normalizeCategoryIds (raw : Option (Sum String (List String))) : List Nat :=
  ((rawCategoryList raw).filter isDigitString).map digitsToNat

/-- Claim C10: every non-digit categoryIds value is silently discarded
before filter compilation (exactly the all-digit values survive, so no
validation error arises and discarded values never reach the query), the
survivors are converted to numbers, and a single non-array value is
treated as a one-element set. -/
theorem categoryIds_normalization (raw : Option (Sum String (List String)))
    (s : String) :
    (normalizeCategoryIds raw).length = (rawCategoryList raw).countP isDigitString ∧
    (∀ n ∈ normalizeCategoryIds raw, ∃ t ∈ rawCategoryList raw,
       isDigitString t = true ∧ digitsToNat t = n) ∧
    normalizeCategoryIds (some (Sum.inl s)) = normalizeCategoryIds (some (Sum.inr [s])) := by
  refine ⟨?_, ?_, rfl⟩
  · unfold normalizeCategoryIds
    rw [List.length_map, List.countP_eq_length_filter]
  · intro n hn
    unfold normalizeCategoryIds at hn
    obtain ⟨t, ht, hv⟩ := List.mem_map.mp hn
    obtain ⟨htl, htp⟩ := List.mem_filter.mp ht
    exact ⟨t, htl, htp, hv⟩

/-- Witness for C10 at a concrete mixed query value: the surviving digit
value 12 is traced back to the raw string that produced it. -/
theorem categoryIds_normalization_witness :
    ∃ t ∈ rawCategoryList (some (Sum.inr ["12", "abc", "7x", "034"])),
      isDigitString t = true ∧ digitsToNat t = 12 :=
  (categoryIds_normalization (some (Sum.inr ["12", "abc", "7x", "034"])) "5").2.1
    12 (by decide)

/-- Outcome of a mutation handler: the HTTP status it answers with. -/
inductive ApiResult where
  | success (code : Nat)
  | apiError (code : Nat)
deriving DecidableEq, Repr

/-- A file accepted by the multer middleware: `path` is where multer
already stored it on disk, `content` stands for its bytes. -/
structure UploadedFile where
  path : String
  originalname : String
  mimetype : String
  size : Nat
  content : String
deriving DecidableEq, Repr

/-- `getFileHash`: the SHA-256 content digest, modelled as the abstract
deterministic content-determined fingerprint (the content itself); same
bytes always yield the same hash regardless of filename. -/
def getFileHash (content : String) : String := content

/-- JavaScript truthiness of an optional number (0 is falsy). -/
def truthyNat : Option Nat → Bool
  | some n => n ≠ 0
  | none => false

/-- JavaScript truthiness of an optional integer (0 is falsy). -/
def truthyInt : Option Int → Bool
  | some n => n ≠ 0
  | none => false

/-- `note || null` from the insert: empty string becomes NULL. -/
def jsOrNull : Option String → Option String
  | some s => if s = "" then none else some s
  | none => none

/-- The dual store: the database plus the set of attachment files present
on disk (as a list of paths). -/
structure St where
  db : DB
  disk : List String
deriving DecidableEq, Repr

/-- One `values` entry accumulated by the attachment insert loop. -/
structure PendingAttachment where
  fileName : String
  filePath : String
  fileType : String
  fileSize : Nat
  fileHash : String
deriving DecidableEq, Repr

/-- `SELECT 1 FROM transaction_attachments WHERE trn_id = ? AND
file_hash = ?`: the duplicate check of both upload loops. -/
def isDupFile (att : List AttachmentRow) (trnId : Nat) (h : String) : Bool :=
  att.any (fun a => a.trnId == trnId && a.fileHash == h)

/-- The shared attachment intake loop of Add and Update: for each uploaded
file, hash it; when the (transaction, hash) pair already has a row,
`fs.unlinkSync` the incoming file and skip it, otherwise push it onto
`values`.  The check runs against the table as it stands when the loop
starts — rows accumulated in `values` are only inserted afterwards. -/
def dedupeLoop (att : List AttachmentRow) (trnId : Nat) :
    List UploadedFile → List String → List PendingAttachment × List String
  | [], disk => ([], disk)
  | f :: fs, disk =>
    if isDupFile att trnId (getFileHash f.content) then
      dedupeLoop att trnId fs (disk.erase f.path)
    else
      let r := dedupeLoop att trnId fs disk
      (⟨f.originalname, f.path, f.mimetype, f.size, getFileHash f.content⟩ :: r.1, r.2)

/-- The batch `INSERT INTO transaction_attachments … VALUES ?`: one row
per pending value, with consecutive auto-increment ids. -/
def mkAttachmentRows (startId trnId : Nat) : List PendingAttachment → List AttachmentRow
  | [] => []
  | v :: vs =>
    ⟨startId, trnId, v.fileName, v.filePath, v.fileType, v.fileSize, v.fileHash⟩ ::
      mkAttachmentRows (startId + 1) trnId vs

/-- Next `transactions` auto-increment id. -/
def nextTrnId (db : DB) : Nat := (db.transactions.map (·.trnId)).foldr max 0 + 1

/-- Next `transaction_attachments` auto-increment id. -/
def nextAttachmentId (db : DB) : Nat :=
  (db.attachments.map (·.attachmentId)).foldr max 0 + 1

/-- The body and files of a `POST /transactions/add` request. -/
structure AddRequest where
  userId : Nat
  categoryId : Option Nat
  amount : Option Int
  note : Option String
  trnDate : Option String
  files : List UploadedFile
deriving DecidableEq, Repr

/-- `POST /transactions/add`: multer first writes every uploaded file to
disk; the handler validates required fields, opens a transaction, inserts
the row, runs the dedupe loop, batch-inserts the unique attachments and
commits.  `failAttachInsert` injects a failure into the batch insert of
attachment rows; the catch handler then rolls the DB back (and performs
no file cleanup). -/
def addTransaction (st : St) (req : AddRequest) (failAttachInsert : Bool) :
    ApiResult × St :=
  let disk0 := st.disk ++ req.files.map (·.path)
  if ¬(truthyNat req.categoryId ∧ truthyInt req.amount ∧ truthyStr req.trnDate) then
    (ApiResult.apiError 422, ⟨st.db, disk0⟩)
  else
    let trnId := nextTrnId st.db
    let row : TransactionRow :=
      ⟨trnId, req.userId, req.categoryId.getD 0, req.amount.getD 0,
       jsOrNull req.note, req.trnDate.getD ""⟩
    let work : DB := { st.db with transactions := st.db.transactions ++ [row] }
    let r := dedupeLoop work.attachments trnId req.files disk0
    if 0 < r.1.length ∧ failAttachInsert then
      (ApiResult.apiError 500, ⟨st.db, r.2⟩)
    else
      let newRows := mkAttachmentRows (nextAttachmentId st.db) trnId r.1
      (ApiResult.success 201, ⟨{ work with attachments := work.attachments ++ newRows }, r.2⟩)

/-- The body, query and files of a `PUT /transactions/update` request;
`deleteAttachmentIds` is the raw body value (absent, single id, or an
array of ids). -/
structure UpdateRequest where
  userId : Nat
  trnId : Option Nat
  categoryId : Option Nat
  amount : Option Int
  note : Option String
  trnDate : Option String
  deleteAttachmentIds : Option (Sum Nat (List Nat))
  files : List UploadedFile
deriving DecidableEq, Repr

/-- Raw `deleteAttachmentIds` normalization: an array stays, a non-null
scalar is wrapped, null/undefined becomes the empty list. -/
def normalizeDeleteIds : Option (Sum Nat (List Nat)) → List Nat
  | some (Sum.inl x) => [x]
  | some (Sum.inr xs) => xs
  | none => []

/-- `hasTransactionUpdates`: at least one of categoryId, amount, note,
trnDate is present (`!== undefined`). -/
def hasFieldUpdates (req : UpdateRequest) : Bool :=
  req.categoryId.isSome || req.amount.isSome || req.note.isSome || req.trnDate.isSome

/-- Ownership check: a transaction row with this id belonging to this
user exists (`WHERE trn_id = ? AND user_id = ?`). -/
def ownsTransaction (db : DB) (trnId userId : Nat) : Bool :=
  db.transactions.any (fun t => t.trnId == trnId && t.userId == userId)

/-- `UPDATE transactions SET <provided fields> WHERE trn_id = ? AND
user_id = ?` (an empty-string note is stored as NULL). -/
def applyFieldUpdates (db : DB) (trnId : Nat) (req : UpdateRequest) : DB :=
  { db with
    transactions := db.transactions.map (fun t =>
      if t.trnId == trnId && t.userId == req.userId then
        { t with
          categoryId := req.categoryId.getD t.categoryId,
          amount := req.amount.getD t.amount,
          note := match req.note with
            | some s => if s = "" then none else some s
            | none => t.note,
          trnDate := req.trnDate.getD t.trnDate }
      else t) }

/-- Delete each listed path from disk, in order (`fs.unlinkSync` guarded
by `fs.existsSync`: a path already absent is skipped silently). -/
def eraseAll (disk : List String) (paths : List String) : List String :=
  paths.foldl (fun d p => d.erase p) disk

/-- `DELETE FROM transaction_attachments WHERE trn_id = ? AND
attachment_id IN (?)`. -/
def removeAttachmentRows (db : DB) (trnId : Nat) (ids : List Nat) : DB :=
  { db with
    attachments := db.attachments.filter
      (fun a => !(a.trnId == trnId && ids.contains a.attachmentId)) }

/-- `PUT /transactions/update`: multer writes the new files first; the
handler rejects a missing trnId and all-empty change sets, verifies
existence/ownership (via the UPDATE row count or an explicit SELECT),
deletes the selected attachments (files from disk, then rows), runs the
dedupe loop over the new files and batch-inserts the unique ones, then
commits.  On an injected attachment-insert failure the catch handler
rolls back the DB and unlinks the uploaded files. -/
def updateTransaction (st : St) (req : UpdateRequest) (failAttachInsert : Bool) :
    ApiResult × St :=
  let disk0 := st.disk ++ req.files.map (·.path)
  let delIds := normalizeDeleteIds req.deleteAttachmentIds
  if ¬ truthyNat req.trnId then (ApiResult.apiError 422, ⟨st.db, disk0⟩)
  else if ¬ hasFieldUpdates req ∧ delIds = [] ∧ req.files = [] then
    (ApiResult.apiError 422, ⟨st.db, disk0⟩)
  else
    let trnId := req.trnId.getD 0
    if ¬ ownsTransaction st.db trnId req.userId then
      (ApiResult.apiError 404, ⟨st.db, disk0⟩)
    else
      let work := if hasFieldUpdates req then applyFieldUpdates st.db trnId req else st.db
      let delRows := work.attachments.filter
        (fun a => a.trnId == trnId && delIds.contains a.attachmentId)
      let disk1 := eraseAll disk0 (delRows.map (·.filePath))
      let work1 := removeAttachmentRows work trnId delIds
      let r := dedupeLoop work1.attachments trnId req.files disk1
      if 0 < r.1.length ∧ failAttachInsert then
        (ApiResult.apiError 500, ⟨st.db, eraseAll r.2 (req.files.map (·.path))⟩)
      else
        let newRows := mkAttachmentRows (nextAttachmentId work1) trnId r.1
        (ApiResult.success 200,
         ⟨{ work1 with attachments := work1.attachments ++ newRows }, r.2⟩)

/-- The query of a `DELETE /transactions/delete` request. -/
structure DeleteRequest where
  userId : Nat
  trnId : Option Nat
deriving DecidableEq, Repr

/-- `DELETE /transactions/delete`: read the attachment file paths of the
transaction, delete the row scoped by id AND owner (zero affected rows ⇒
404, roll back, delete no file), then unlink the fetched paths from disk
(attachment rows are removed by `ON DELETE CASCADE`) and commit. -/
def deleteTransaction (st : St) (req : DeleteRequest) : ApiResult × St :=
  let trnId := req.trnId.getD 0
  let paths := (st.db.attachments.filter (fun a => a.trnId == trnId)).map (·.filePath)
  if ¬ ownsTransaction st.db trnId req.userId then (ApiResult.apiError 404, st)
  else
    let db1 : DB :=
      { transactions := st.db.transactions.filter
          (fun t => !(t.trnId == trnId && t.userId == req.userId)),
        categories := st.db.categories,
        attachments := st.db.attachments.filter (fun a => !(a.trnId == trnId)) }
    (ApiResult.success 200, ⟨db1, eraseAll st.disk paths⟩)

/-- Number of attachment rows recorded for one (transaction, hash) pair. -/
def attCount (db : DB) (trnId : Nat) (h : String) : Nat :=
  (db.attachments.filter (fun a => a.trnId == trnId && a.fileHash == h)).length

/-- Dual-store consistency: every file on disk is referenced by a
committed attachment row, and every committed attachment row references a
file present on disk. -/
def consistent (st : St) : Prop :=
  (∀ p ∈ st.disk, ∃ a ∈ st.db.attachments, a.filePath = p) ∧
  (∀ a ∈ st.db.attachments, a.filePath ∈ st.disk)

instance decConsistent (st : St) : Decidable (consistent st) := by
  unfold consistent
  exact inferInstance

/-- The pending value built from one kept uploaded file. -/
def toPending (f : UploadedFile) : PendingAttachment :=
  ⟨f.originalname, f.path, f.mimetype, f.size, getFileHash f.content⟩

theorem dedupeLoop_fst (att : List AttachmentRow) (trn : Nat)
    (files : List UploadedFile) (disk : List String) :
    (dedupeLoop att trn files disk).1 =
      (files.filter (fun f => !isDupFile att trn (getFileHash f.content))).map toPending := by
  induction files generalizing disk with
  | nil => rfl
  | cons f fs ih =>
    by_cases h : isDupFile att trn (getFileHash f.content) = true
    · simp [dedupeLoop, h, List.filter_cons, ih]
    · simp only [Bool.not_eq_true] at h
      simp [dedupeLoop, h, List.filter_cons, ih, toPending]

theorem dedupeLoop_snd (att : List AttachmentRow) (trn : Nat)
    (files : List UploadedFile) (disk : List String) :
    (dedupeLoop att trn files disk).2 =
      eraseAll disk
        ((files.filter (fun f => isDupFile att trn (getFileHash f.content))).map (·.path)) := by
  induction files generalizing disk with
  | nil => rfl
  | cons f fs ih =>
    by_cases h : isDupFile att trn (getFileHash f.content) = true
    · simp [dedupeLoop, h, List.filter_cons, ih, eraseAll]
    · simp only [Bool.not_eq_true] at h
      simp [dedupeLoop, h, List.filter_cons, ih]

theorem count_eraseAll (ps disk : List String) (p : String) :
    (eraseAll disk ps).count p = disk.count p - ps.count p := by
  induction ps generalizing disk with
  | nil => simp [eraseAll]
  | cons q qs ih =>
    show (eraseAll (disk.erase q) qs).count p = _
    rw [ih, List.count_erase, List.count_cons]
    by_cases hqp : (q == p) = true
    · simp [hqp]
      omega
    · simp [hqp]

theorem mem_eraseAll_iff (disk ps : List String) (p : String) :
    p ∈ eraseAll disk ps ↔ ps.count p < disk.count p := by
  rw [← List.count_pos_iff, count_eraseAll]
  omega

theorem eraseAll_subset (disk ps : List String) (p : String)
    (h : p ∈ eraseAll disk ps) : p ∈ disk := by
  rw [mem_eraseAll_iff] at h
  rw [← List.count_pos_iff]
  omega

theorem eraseAll_nodup (ps disk : List String) (h : disk.Nodup) :
    (eraseAll disk ps).Nodup := by
  induction ps generalizing disk with
  | nil => exact h
  | cons q qs ih => exact ih (disk.erase q) (h.erase q)

theorem eraseAll_append_of_disjoint (ps l1 l2 : List String)
    (h : ∀ p ∈ ps, p ∉ l2) : eraseAll (l1 ++ l2) ps = eraseAll l1 ps ++ l2 := by
  induction ps generalizing l1 with
  | nil => rfl
  | cons q qs ih =>
    show eraseAll ((l1 ++ l2).erase q) qs = eraseAll (l1.erase q) qs ++ l2
    rw [List.erase_append]
    by_cases hq : q ∈ l1
    · rw [if_pos hq, ih _ (fun p hp => h p (List.mem_cons_of_mem q hp))]
    · rw [if_neg hq, List.erase_of_not_mem (h q (List.mem_cons_self q qs)),
        List.erase_of_not_mem hq,
        ih _ (fun p hp => h p (List.mem_cons_of_mem q hp))]

theorem count_map_eq_countP {α : Type} (g : α → String) (l : List α) (p : String) :
    (l.map g).count p = l.countP (fun x => g x == p) := by
  induction l with
  | nil => rfl
  | cons x xs ih => simp [List.count_cons, List.countP_cons, ih]

theorem countP_and_split {α : Type} (l : List α) (p q : α → Bool) :
    l.countP (fun x => p x && q x) + l.countP (fun x => p x && !q x) = l.countP p := by
  induction l with
  | nil => rfl
  | cons x xs ih =>
    simp only [List.countP_cons]
    by_cases hp : p x = true <;> by_cases hq : q x = true <;>
      simp [hp, hq] <;> omega

theorem mkAttachmentRows_mem_elim (trn : Nat) (vs : List PendingAttachment) :
    ∀ sid, ∀ a ∈ mkAttachmentRows sid trn vs,
      ∃ v ∈ vs, a.trnId = trn ∧ a.filePath = v.filePath ∧ a.fileHash = v.fileHash := by
  induction vs with
  | nil => intro sid a ha; exact absurd ha (List.not_mem_nil a)
  | cons v vs ih =>
    intro sid a ha
    rcases List.mem_cons.mp ha with h | h
    · exact ⟨v, List.mem_cons_self v vs, by rw [h]; exact ⟨rfl, rfl, rfl⟩⟩
    · obtain ⟨w, hw, hprops⟩ := ih (sid + 1) a h
      exact ⟨w, List.mem_cons_of_mem v hw, hprops⟩

theorem mkAttachmentRows_mem_intro (trn : Nat) (vs : List PendingAttachment) :
    ∀ sid, ∀ v ∈ vs, ∃ a ∈ mkAttachmentRows sid trn vs,
      a.trnId = trn ∧ a.filePath = v.filePath ∧ a.fileHash = v.fileHash := by
  induction vs with
  | nil => intro sid v hv; exact absurd hv (List.not_mem_nil v)
  | cons w vs ih =>
    intro sid v hv
    rcases List.mem_cons.mp hv with h | h
    · subst h
      exact ⟨_, List.mem_cons_self _ _, rfl, rfl, rfl⟩
    · obtain ⟨a, ha, hprops⟩ := ih (sid + 1) v h
      exact ⟨a, List.mem_cons_of_mem _ ha, hprops⟩

/-- Consistency is preserved by the attachment intake step shared by Add
and Update: starting from a consistent attachment table and disk, with the
uploaded files freshly written to unique paths, the dedupe loop plus the
batch insert leave every disk file referenced and every row backed by a
file. -/
theorem intake_consistent (att0 : List AttachmentRow) (B : List String)
    (files : List UploadedFile) (trn sid : Nat)
    (h1 : ∀ p ∈ B, ∃ a ∈ att0, a.filePath = p)
    (h2 : ∀ a ∈ att0, a.filePath ∈ B)
    (hfn : (files.map (·.path)).Nodup)
    (hfresh : ∀ f ∈ files, f.path ∉ B) :
    (∀ p ∈ (dedupeLoop att0 trn files (B ++ files.map (·.path))).2,
       ∃ a ∈ att0 ++
           mkAttachmentRows sid trn (dedupeLoop att0 trn files (B ++ files.map (·.path))).1,
         a.filePath = p) ∧
    (∀ a ∈ att0 ++
        mkAttachmentRows sid trn (dedupeLoop att0 trn files (B ++ files.map (·.path))).1,
       a.filePath ∈ (dedupeLoop att0 trn files (B ++ files.map (·.path))).2) := by
  rw [dedupeLoop_fst, dedupeLoop_snd]
  have hsplit : ∀ p : String,
      ((files.filter (fun f => isDupFile att0 trn (getFileHash f.content))).map (·.path)).count p +
      ((files.filter (fun f => !isDupFile att0 trn (getFileHash f.content))).map (·.path)).count p =
      (files.map (·.path)).count p := by
    intro p
    rw [count_map_eq_countP, count_map_eq_countP, count_map_eq_countP,
      List.countP_filter, List.countP_filter]
    exact countP_and_split files _ _
  have hF1 : ∀ p : String, (files.map (·.path)).count p ≤ 1 :=
    List.nodup_iff_count_le_one.mp hfn
  constructor
  · intro p hp
    rw [mem_eraseAll_iff, List.count_append] at hp
    by_cases hpB : p ∈ B
    · obtain ⟨a, ha, hpa⟩ := h1 p hpB
      exact ⟨a, List.mem_append_left _ ha, hpa⟩
    · have hB0 : B.count p = 0 := List.count_eq_zero.mpr hpB
      have hcF := hF1 p
      have hs := hsplit p
      have hkept :
          0 < ((files.filter (fun f => !isDupFile att0 trn (getFileHash f.content))).map
            (·.path)).count p := by omega
      rw [List.count_pos_iff] at hkept
      obtain ⟨f, hf, hfp⟩ := List.mem_map.mp hkept
      obtain ⟨a, ha, htrn, hpath, hhash⟩ :=
        mkAttachmentRows_mem_intro trn
          ((files.filter (fun f => !isDupFile att0 trn (getFileHash f.content))).map toPending)
          sid (toPending f) (List.mem_map_of_mem toPending hf)
      refine ⟨a, List.mem_append_right _ ha, ?_⟩
      rw [hpath]
      exact hfp
  · intro a ha
    rcases List.mem_append.mp ha with hold | hnew
    · have hpB := h2 a hold
      rw [mem_eraseAll_iff, List.count_append]
      have hBpos : 0 < B.count a.filePath := List.count_pos_iff.mpr hpB
      have hcF0 : (files.map (·.path)).count a.filePath = 0 := by
        rw [List.count_eq_zero]
        intro hmem
        obtain ⟨f, hf, hfp⟩ := List.mem_map.mp hmem
        exact hfresh f hf (hfp ▸ hpB)
      have hs := hsplit a.filePath
      omega
    · obtain ⟨v, hv, htrn, hpath, hhash⟩ := mkAttachmentRows_mem_elim trn _ sid a hnew
      obtain ⟨f, hfkeptmem, hfv⟩ := List.mem_map.mp hv
      obtain ⟨hff, hfk⟩ := List.mem_filter.mp hfkeptmem
      have hafp : a.filePath = f.path := by rw [hpath, ← hfv]; rfl
      rw [mem_eraseAll_iff, List.count_append, hafp]
      have hcB0 : B.count f.path = 0 := List.count_eq_zero.mpr (hfresh f hff)
      have hkpos :
          0 < ((files.filter (fun f => !isDupFile att0 trn (getFileHash f.content))).map
            (·.path)).count f.path := by
        rw [List.count_pos_iff]
        exact List.mem_map.mpr ⟨f, hfkeptmem, rfl⟩
      have hs := hsplit f.path
      have hcF := hF1 f.path
      omega

/-- Consistency is preserved by the attachment removal step shared by
Update (selected ids) and Delete (whole transaction): deleting the files
of the removed rows from disk and the rows from the table keeps the two
sides aligned, given distinct stored paths and a duplicate-free disk. -/
theorem removal_consistent (att : List AttachmentRow) (D : List String)
    (delP : AttachmentRow → Bool)
    (h1 : ∀ p ∈ D, ∃ a ∈ att, a.filePath = p)
    (h2 : ∀ a ∈ att, a.filePath ∈ D)
    (hD : D.Nodup) (hap : (att.map (·.filePath)).Nodup) :
    (∀ p ∈ eraseAll D ((att.filter delP).map (·.filePath)),
        ∃ a ∈ att.filter (fun x => !delP x), a.filePath = p) ∧
    (∀ a ∈ att.filter (fun x => !delP x),
        a.filePath ∈ eraseAll D ((att.filter delP).map (·.filePath))) := by
  have hsplit : ∀ p : String,
      ((att.filter delP).map (·.filePath)).count p +
      ((att.filter (fun x => !delP x)).map (·.filePath)).count p =
      (att.map (·.filePath)).count p := by
    intro p
    rw [count_map_eq_countP, count_map_eq_countP, count_map_eq_countP,
      List.countP_filter, List.countP_filter]
    exact countP_and_split att _ delP
  have hA1 : ∀ p : String, (att.map (·.filePath)).count p ≤ 1 :=
    List.nodup_iff_count_le_one.mp hap
  have hD1 : ∀ p : String, D.count p ≤ 1 := List.nodup_iff_count_le_one.mp hD
  constructor
  · intro p hp
    rw [mem_eraseAll_iff] at hp
    have hpD : p ∈ D := by
      rw [← List.count_pos_iff]
      omega
    obtain ⟨a, ha, hfp⟩ := h1 p hpD
    have hdel0 : ((att.filter delP).map (·.filePath)).count p = 0 := by
      have := hD1 p
      omega
    by_cases hda : delP a = true
    · exfalso
      have hmem : p ∈ (att.filter delP).map (·.filePath) :=
        List.mem_map.mpr ⟨a, List.mem_filter.mpr ⟨ha, hda⟩, hfp⟩
      rw [← List.count_pos_iff] at hmem
      omega
    · exact ⟨a, List.mem_filter.mpr ⟨ha, by simp [hda]⟩, hfp⟩
  · intro a ha
    obtain ⟨haatt, hak⟩ := List.mem_filter.mp ha
    rw [mem_eraseAll_iff]
    have hDpos : 0 < D.count a.filePath := List.count_pos_iff.mpr (h2 a haatt)
    have hkpos : 0 < ((att.filter (fun x => !delP x)).map (·.filePath)).count a.filePath := by
      rw [List.count_pos_iff]
      exact List.mem_map.mpr ⟨a, ha, rfl⟩
    have hs := hsplit a.filePath
    have hc := hA1 a.filePath
    omega

theorem applyFieldUpdates_attachments (db : DB) (trn : Nat) (req : UpdateRequest) :
    (applyFieldUpdates db trn req).attachments = db.attachments := rfl

theorem add_success_consistent (st : St) (req : AddRequest) (fl : Bool)
    (hc : consistent st)
    (hfn : (req.files.map (·.path)).Nodup)
    (hfresh : ∀ f ∈ req.files, f.path ∉ st.disk)
    (hs : (addTransaction st req fl).1 = ApiResult.success 201) :
    consistent (addTransaction st req fl).2 := by
  simp only [addTransaction] at hs ⊢
  split_ifs at hs ⊢ with h1 h2
  all_goals first
    | (simp at hs; done)
    | exact
        ⟨(intake_consistent st.db.attachments st.disk req.files (nextTrnId st.db)
            (nextAttachmentId st.db) hc.1 hc.2 hfn hfresh).1,
         (intake_consistent st.db.attachments st.disk req.files (nextTrnId st.db)
            (nextAttachmentId st.db) hc.1 hc.2 hfn hfresh).2⟩

theorem delete_success_consistent (st : St) (req : DeleteRequest)
    (hc : consistent st) (hd : st.disk.Nodup)
    (hap : (st.db.attachments.map (·.filePath)).Nodup)
    (hs : (deleteTransaction st req).1 = ApiResult.success 200) :
    consistent (deleteTransaction st req).2 := by
  simp only [deleteTransaction] at hs ⊢
  split_ifs at hs ⊢ with h1
  all_goals first
    | (simp at hs; done)
    | exact
        ⟨(removal_consistent st.db.attachments st.disk
            (fun a => a.trnId == req.trnId.getD 0) hc.1 hc.2 hd hap).1,
         (removal_consistent st.db.attachments st.disk
            (fun a => a.trnId == req.trnId.getD 0) hc.1 hc.2 hd hap).2⟩

theorem update_success_consistent (st : St) (req : UpdateRequest) (fl : Bool)
    (hc : consistent st) (hd : st.disk.Nodup)
    (hap : (st.db.attachments.map (·.filePath)).Nodup)
    (hfn : (req.files.map (·.path)).Nodup)
    (hfresh : ∀ f ∈ req.files, f.path ∉ st.disk)
    (hs : (updateTransaction st req fl).1 = ApiResult.success 200) :
    consistent (updateTransaction st req fl).2 := by
  have main : ∀ trn : Nat,
      (∀ p ∈ (dedupeLoop
          (st.db.attachments.filter
            (fun a => !(a.trnId == trn &&
              (normalizeDeleteIds req.deleteAttachmentIds).contains a.attachmentId)))
          trn req.files
          (eraseAll (st.disk ++ req.files.map (·.path))
            ((st.db.attachments.filter
              (fun a => a.trnId == trn &&
                (normalizeDeleteIds req.deleteAttachmentIds).contains a.attachmentId)).map
              (·.filePath)))).2,
        ∃ a ∈ (st.db.attachments.filter
            (fun a => !(a.trnId == trn &&
              (normalizeDeleteIds req.deleteAttachmentIds).contains a.attachmentId))) ++
          mkAttachmentRows
            (nextAttachmentId (removeAttachmentRows st.db trn
              (normalizeDeleteIds req.deleteAttachmentIds)))
            trn
            (dedupeLoop
              (st.db.attachments.filter
                (fun a => !(a.trnId == trn &&
                  (normalizeDeleteIds req.deleteAttachmentIds).contains a.attachmentId)))
              trn req.files
              (eraseAll (st.disk ++ req.files.map (·.path))
                ((st.db.attachments.filter
                  (fun a => a.trnId == trn &&
                    (normalizeDeleteIds req.deleteAttachmentIds).contains a.attachmentId)).map
                  (·.filePath)))).1,
          a.filePath = p) ∧
      (∀ a ∈ (st.db.attachments.filter
            (fun a => !(a.trnId == trn &&
              (normalizeDeleteIds req.deleteAttachmentIds).contains a.attachmentId))) ++
          mkAttachmentRows
            (nextAttachmentId (removeAttachmentRows st.db trn
              (normalizeDeleteIds req.deleteAttachmentIds)))
            trn
            (dedupeLoop
              (st.db.attachments.filter
                (fun a => !(a.trnId == trn &&
                  (normalizeDeleteIds req.deleteAttachmentIds).contains a.attachmentId)))
              trn req.files
              (eraseAll (st.disk ++ req.files.map (·.path))
                ((st.db.attachments.filter
                  (fun a => a.trnId == trn &&
                    (normalizeDeleteIds req.deleteAttachmentIds).contains a.attachmentId)).map
                  (·.filePath)))).1,
        a.filePath ∈ (dedupeLoop
          (st.db.attachments.filter
            (fun a => !(a.trnId == trn &&
              (normalizeDeleteIds req.deleteAttachmentIds).contains a.attachmentId)))
          trn req.files
          (eraseAll (st.disk ++ req.files.map (·.path))
            ((st.db.attachments.filter
              (fun a => a.trnId == trn &&
                (normalizeDeleteIds req.deleteAttachmentIds).contains a.attachmentId)).map
              (·.filePath)))).2) := by
    intro trn
    set delP : AttachmentRow → Bool :=
      fun a => a.trnId == trn &&
        (normalizeDeleteIds req.deleteAttachmentIds).contains a.attachmentId with hdelP
    have hdisj : ∀ p ∈ (st.db.attachments.filter delP).map (·.filePath),
        p ∉ req.files.map (·.path) := by
      intro p hp hmem
      obtain ⟨a, ha, hpa⟩ := List.mem_map.mp hp
      obtain ⟨f, hf, hfp⟩ := List.mem_map.mp hmem
      have hdsk : p ∈ st.disk := hpa ▸ hc.2 a (List.mem_filter.mp ha).1
      exact hfresh f hf (hfp ▸ hdsk)
    have hstep : eraseAll (st.disk ++ req.files.map (·.path))
          ((st.db.attachments.filter delP).map (·.filePath)) =
        eraseAll st.disk ((st.db.attachments.filter delP).map (·.filePath)) ++
          req.files.map (·.path) :=
      eraseAll_append_of_disjoint _ _ _ hdisj
    rw [hstep]
    have hrem := removal_consistent st.db.attachments st.disk delP hc.1 hc.2 hd hap
    have hfresh2 : ∀ f ∈ req.files,
        f.path ∉ eraseAll st.disk ((st.db.attachments.filter delP).map (·.filePath)) := by
      intro f hf hmem
      exact hfresh f hf (eraseAll_subset _ _ _ hmem)
    exact intake_consistent
      (st.db.attachments.filter (fun x => !delP x))
      (eraseAll st.disk ((st.db.attachments.filter delP).map (·.filePath)))
      req.files trn _ hrem.1 hrem.2 hfn hfresh2
  simp only [updateTransaction] at hs ⊢
  split_ifs at hs ⊢ with h1 h2 h3 h4 h5
  all_goals first
    | (simp at hs; done)
    | exact ⟨(main (req.trnId.getD 0)).1, (main (req.trnId.getD 0)).2⟩

/-- An empty store with one category, used as the Add failure scenario. -/
def c2State : St := ⟨⟨[], [⟨1, "Food", "expense"⟩], []⟩, []⟩

/-- An Add request with two distinct-content files. -/
def c2Req : AddRequest :=
  ⟨1, some 1, some 50, none, some "2024-01-01",
   [⟨"up/a.png", "a.png", "image/png", 3, "AAA"⟩,
    ⟨"up/b.png", "b.png", "image/png", 3, "BBB"⟩]⟩

/-- Claim C2 (code bug): forcing the DB insert of attachment rows to fail
after two files were written to disk rolls the row inserts back, but both
files remain on disk — the Add catch handler performs no file cleanup,
contrary to the spec (and to the route's own "File cleanup on failure"
doc comment). -/
theorem add_failure_leaves_files_on_disk :
    (addTransaction c2State c2Req true).1 = ApiResult.apiError 500 ∧
    (addTransaction c2State c2Req true).2.db = c2State.db ∧
    (addTransaction c2State c2Req true).2.disk = ["up/a.png", "up/b.png"] := by
  decide

/-- An empty store with one category, used for the duplicate-batch Add. -/
def c1State : St := ⟨⟨[], [⟨1, "Food", "expense"⟩], []⟩, []⟩

/-- An Add request uploading byte-identical content twice. -/
def c1DupReq : AddRequest :=
  ⟨1, some 1, some 50, none, some "2024-01-01",
   [⟨"up/one.png", "one.png", "image/png", 3, "SAME"⟩,
    ⟨"up/two.png", "two.png", "image/png", 3, "SAME"⟩]⟩

/-- Claim C1 counterexample: uploading byte-identical content twice in one
Add request succeeds and leaves TWO attachment records for the same
(transaction, content-hash) pair, with both files kept on disk — the
duplicate check only consults rows already in the table, and the batch
rows are only inserted after the loop. -/
theorem attachment_dedupe_counterexample :
    (addTransaction c1State c1DupReq false).1 = ApiResult.success 201 ∧
    attCount (addTransaction c1State c1DupReq false).2.db 1 "SAME" = 2 ∧
    (addTransaction c1State c1DupReq false).2.disk = ["up/one.png", "up/two.png"] := by
  decide

/-- A consistent store (no files, no attachments) for the C3 failure. -/
def c3State : St := ⟨⟨[], [⟨1, "Food", "expense"⟩], []⟩, []⟩

/-- An Add request with one file, to be failed at the attachment insert. -/
def c3FailAdd : AddRequest :=
  ⟨1, some 1, some 50, none, some "2024-01-01",
   [⟨"up/w1.png", "w1.png", "image/png", 3, "H1"⟩]⟩

/-- Claim C3 counterexample: an Add that completes by rollback (attachment
insert failure) leaves the dual store inconsistent — the file is on disk
with no committed attachment row referencing it. -/
theorem dual_store_counterexample :
    consistent c3State ∧
    (addTransaction c3State c3FailAdd true).1 = ApiResult.apiError 500 ∧
    ¬ consistent (addTransaction c3State c3FailAdd true).2 := by
  decide

/-- Claim C3 (amended): after every Add, Update, or Delete operation that
completes successfully, the dual store satisfies: no file on disk lacks a
corresponding committed attachment DB row, and no committed attachment DB
row references a file missing from disk (given a consistent starting
state with duplicate-free disk and stored paths, and uploads written to
fresh distinct paths).  Operations that complete by rollback can violate
the invariant (see the counterexample). -/
theorem dual_store_consistency_on_success (st : St)
    (areq : AddRequest) (ureq : UpdateRequest) (dreq : DeleteRequest) (fl1 fl2 : Bool)
    (hc : consistent st) (hd : st.disk.Nodup)
    (hap : (st.db.attachments.map (·.filePath)).Nodup)
    (han : (areq.files.map (·.path)).Nodup)
    (haf : ∀ f ∈ areq.files, f.path ∉ st.disk)
    (hun : (ureq.files.map (·.path)).Nodup)
    (huf : ∀ f ∈ ureq.files, f.path ∉ st.disk) :
    ((addTransaction st areq fl1).1 = ApiResult.success 201 →
      consistent (addTransaction st areq fl1).2) ∧
    ((updateTransaction st ureq fl2).1 = ApiResult.success 200 →
      consistent (updateTransaction st ureq fl2).2) ∧
    ((deleteTransaction st dreq).1 = ApiResult.success 200 →
      consistent (deleteTransaction st dreq).2) :=
  ⟨fun hs => add_success_consistent st areq fl1 hc han haf hs,
   fun hs => update_success_consistent st ureq fl2 hc hd hap hun huf hs,
   fun hs => delete_success_consistent st dreq hc hd hap hs⟩

/-- A consistent populated store for the C3 witness. -/
def c3WitState : St :=
  ⟨⟨[⟨1, 1, 1, 50, none, "2024-01-01"⟩], [⟨1, "Food", "expense"⟩],
    [⟨1, 1, "old.png", "up/old.png", "image/png", 4, "OLD"⟩]⟩, ["up/old.png"]⟩

/-- A succeeding Add for the C3 witness. -/
def c3WitAdd : AddRequest :=
  ⟨1, some 1, some 20, none, some "2024-02-02",
   [⟨"up/n1.png", "n1.png", "image/png", 2, "N1"⟩]⟩

/-- A succeeding Update for the C3 witness: change the amount, delete
attachment 1, add one new file. -/
def c3WitUpd : UpdateRequest :=
  ⟨1, some 1, none, some 75, none, none, some (Sum.inl 1),
   [⟨"up/n2.png", "n2.png", "image/png", 2, "N2"⟩]⟩

/-- A succeeding Delete for the C3 witness. -/
def c3WitDel : DeleteRequest := ⟨1, some 1⟩

/-- Witness for the amended C3 at concrete successful Add, Update and
Delete operations on a consistent populated store. -/
theorem dual_store_consistency_on_success_witness :
    consistent (addTransaction c3WitState c3WitAdd false).2 ∧
    consistent (updateTransaction c3WitState c3WitUpd false).2 ∧
    consistent (deleteTransaction c3WitState c3WitDel).2 :=
  ⟨(dual_store_consistency_on_success c3WitState c3WitAdd c3WitUpd c3WitDel false false
      (by decide) (by decide) (by decide) (by decide) (by decide) (by decide)
      (by decide)).1 (by decide),
   (dual_store_consistency_on_success c3WitState c3WitAdd c3WitUpd c3WitDel false false
      (by decide) (by decide) (by decide) (by decide) (by decide) (by decide)
      (by decide)).2.1 (by decide),
   (dual_store_consistency_on_success c3WitState c3WitAdd c3WitUpd c3WitDel false false
      (by decide) (by decide) (by decide) (by decide) (by decide) (by decide)
      (by decide)).2.2 (by decide)⟩

/-- A store owned by user 1 for the C8 counterexample. -/
def c8State : St :=
  ⟨⟨[⟨1, 1, 1, 50, none, "2024-01-01"⟩], [⟨1, "Food", "expense"⟩], []⟩, []⟩

/-- An Update by user 2 (not the owner) with no field changes and one new
file. -/
def c8Req : UpdateRequest :=
  ⟨2, some 1, none, none, none, none, none,
   [⟨"up/x.png", "x.png", "image/png", 3, "X"⟩]⟩

/-- Claim C8 counterexample: attachment addition against a non-owned
transaction fails with Not Found, but it is not effect-free — the file
uploaded with the rejected request remains on disk (the 404 return path
performs no cleanup). -/
theorem update_notfound_effects_counterexample :
    (updateTransaction c8State c8Req false).1 = ApiResult.apiError 404 ∧
    (updateTransaction c8State c8Req false).2.disk = ["up/x.png"] ∧
    (updateTransaction c8State c8Req false).2.disk ≠ c8State.disk := by
  decide

/-- Claim C8 (amended): a request with none of the three categories of
change is rejected as a no-op with the state exactly unchanged, before any
store access; and if field changes are absent but attachment changes are
present, existence/ownership is verified first, so attachment
deletion/addition against a nonexistent or non-owned transaction fails
with Not Found with no database change and no attachment deletion —
though the files uploaded with the rejected request remain on disk. -/
theorem update_noop_and_ownership (st : St) (req : UpdateRequest) (fl : Bool) :
    (hasFieldUpdates req = false → normalizeDeleteIds req.deleteAttachmentIds = [] →
      req.files = [] → updateTransaction st req fl = (ApiResult.apiError 422, st)) ∧
    (truthyNat req.trnId = true →
      ownsTransaction st.db (req.trnId.getD 0) req.userId = false →
      (normalizeDeleteIds req.deleteAttachmentIds ≠ [] ∨ req.files ≠ []) →
      (updateTransaction st req fl).1 = ApiResult.apiError 404 ∧
      (updateTransaction st req fl).2.db = st.db ∧
      (updateTransaction st req fl).2.disk = st.disk ++ req.files.map (·.path)) := by
  constructor
  · intro h1 h2 h3
    by_cases ht : truthyNat req.trnId = true <;>
      simp [updateTransaction, h1, h2, h3, ht]
  · intro ht hown hch
    have hnotnoop : ¬(¬hasFieldUpdates req = true ∧
        normalizeDeleteIds req.deleteAttachmentIds = [] ∧ req.files = []) := by
      rintro ⟨-, hd2, hf2⟩
      rcases hch with hch | hch
      · exact hch hd2
      · exact hch hf2
    simp only [updateTransaction, ht]
    rw [if_neg (by simp), if_neg hnotnoop, if_pos (by simp [hown])]
    exact ⟨rfl, rfl, rfl⟩

/-- A store for the C8 witness. -/
def c8WitState : St :=
  ⟨⟨[⟨1, 1, 1, 50, none, "2024-01-01"⟩], [⟨1, "Food", "expense"⟩], []⟩, []⟩

/-- A no-op Update request (no fields, no deletions, no files). -/
def c8NoopReq : UpdateRequest := ⟨1, some 1, none, none, none, none, none, []⟩

/-- An Update against a transaction id that does not exist, deleting an
attachment id. -/
def c8MissReq : UpdateRequest :=
  ⟨1, some 9, none, none, none, none, some (Sum.inl 3), []⟩

/-- Witness for the amended C8: the concrete no-op request is rejected
with the state unchanged, and the concrete attachment change against a
nonexistent transaction gets 404 with no effect beyond the (here absent)
uploads. -/
theorem update_noop_and_ownership_witness :
    updateTransaction c8WitState c8NoopReq false = (ApiResult.apiError 422, c8WitState) ∧
    ((updateTransaction c8WitState c8MissReq false).1 = ApiResult.apiError 404 ∧
      (updateTransaction c8WitState c8MissReq false).2.db = c8WitState.db ∧
      (updateTransaction c8WitState c8MissReq false).2.disk =
        c8WitState.disk ++ c8MissReq.files.map (·.path)) :=
  ⟨(update_noop_and_ownership c8WitState c8NoopReq false).1 (by decide) (by decide) rfl,
   (update_noop_and_ownership c8WitState c8MissReq false).2 (by decide) (by decide)
     (Or.inl (by decide))⟩

/-- Claim C9: Delete reads the attachment paths, deletes the row scoped by
id AND owner; zero affected rows means Not Found with the state entirely
unchanged (no file deleted); otherwise it succeeds, the transaction row
and its attachment rows are gone (cascade), the matched files are gone
from disk, and a subsequent list() for that user no longer includes the
transaction. -/
theorem delete_contract (st : St) (req : DeleteRequest) (hd : st.disk.Nodup) :
    (ownsTransaction st.db (req.trnId.getD 0) req.userId = false →
      deleteTransaction st req = (ApiResult.apiError 404, st)) ∧
    (ownsTransaction st.db (req.trnId.getD 0) req.userId = true →
      (deleteTransaction st req).1 = ApiResult.success 200 ∧
      (∀ t ∈ (deleteTransaction st req).2.db.transactions,
        ¬(t.trnId = req.trnId.getD 0 ∧ t.userId = req.userId)) ∧
      (∀ a ∈ (deleteTransaction st req).2.db.attachments,
        a.trnId ≠ req.trnId.getD 0) ∧
      (∀ a ∈ st.db.attachments, a.trnId = req.trnId.getD 0 →
        a.filePath ∉ (deleteTransaction st req).2.disk) ∧
      (∀ o : ListOptions,
        ∀ it ∈ (fetchTransactions (deleteTransaction st req).2.db req.userId o).transactions,
          it.trnId ≠ req.trnId.getD 0)) := by
  constructor
  · intro hF
    simp only [deleteTransaction]
    rw [if_pos (by simp [hF])]
  · intro hT
    simp only [deleteTransaction]
    rw [if_neg (by simp [hT])]
    refine ⟨rfl, ?_, ?_, ?_, ?_⟩
    · intro t ht hcon
      have hpred := (List.mem_filter.mp ht).2
      simp [hcon.1, hcon.2] at hpred
    · intro a ha
      have hpred := (List.mem_filter.mp ha).2
      simp at hpred
      exact hpred
    · intro a ha htrn hmem
      rw [mem_eraseAll_iff] at hmem
      have hd1 : st.disk.count a.filePath ≤ 1 := List.nodup_iff_count_le_one.mp hd _
      have hp : a.filePath ∈
          (st.db.attachments.filter (fun x => x.trnId == req.trnId.getD 0)).map
            (·.filePath) :=
        List.mem_map.mpr ⟨a, List.mem_filter.mpr ⟨ha, by simp [htrn]⟩, rfl⟩
      rw [← List.count_pos_iff] at hp
      omega
    · intro o it hit
      simp only [fetchTransactions] at hit
      obtain ⟨p, hp, hpe⟩ := List.mem_map.mp hit
      have hp2 := List.drop_subset _ _ (List.take_subset _ _ hp)
      have hp4 := List.mem_mergeSort.mp hp2
      simp only [filteredJoin] at hp4
      obtain ⟨t, ht, hsome⟩ := List.mem_filterMap.mp hp4
      rcases hfind : List.find?
          (fun c => c.categoryId == t.categoryId) st.db.categories with _ | c
      · rw [hfind] at hsome
        simp at hsome
      · simp only [hfind] at hsome
        by_cases hcond : (t.userId == req.userId && matchesFilters o.filters t c) = true
        · rw [if_pos hcond] at hsome
          have hpt : (t, c) = p := by
            injection hsome
          have huid : t.userId = req.userId := by
            have h2 := hcond
            simp at h2
            exact h2.1
          have hpred := (List.mem_filter.mp ht).2
          have htrn : t.trnId ≠ req.trnId.getD 0 := by
            simp [huid] at hpred
            exact hpred
          have hitid : it.trnId = t.trnId := by
            rw [← hpe, ← hpt]
          rw [hitid]
          exact htrn
        · rw [if_neg hcond] at hsome
          simp at hsome

/-- A populated store for the C9 witness: user 1 owns transaction 1 with
one attachment on disk. -/
def c9State : St :=
  ⟨⟨[⟨1, 1, 1, 50, none, "2024-01-01"⟩], [⟨1, "Food", "expense"⟩],
    [⟨1, 1, "a.png", "up/a.png", "image/png", 3, "A"⟩]⟩, ["up/a.png"]⟩

/-- Witness for C9: a non-owner Delete gets 404 with the state unchanged,
and the owner's Delete succeeds. -/
theorem delete_contract_witness :
    deleteTransaction c9State ⟨2, some 1⟩ = (ApiResult.apiError 404, c9State) ∧
    (deleteTransaction c9State ⟨1, some 1⟩).1 = ApiResult.success 200 :=
  ⟨(delete_contract c9State ⟨2, some 1⟩ (by decide)).1 (by decide),
   ((delete_contract c9State ⟨1, some 1⟩ (by decide)).2 (by decide)).1⟩

theorem isDupFile_iff (att : List AttachmentRow) (trn : Nat) (h : String) :
    isDupFile att trn h = true ↔
      0 < (att.filter (fun a => a.trnId == trn && a.fileHash == h)).length := by
  unfold isDupFile
  rw [List.any_eq_true]
  constructor
  · rintro ⟨a, ha, hpa⟩
    exact List.length_pos_of_mem (List.mem_filter.mpr ⟨ha, hpa⟩)
  · intro hpos
    obtain ⟨a, ha⟩ := List.exists_mem_of_length_pos hpos
    obtain ⟨h1, h2⟩ := List.mem_filter.mp ha
    exact ⟨a, h1, h2⟩

theorem removeAttachmentRows_nil (db : DB) (trn : Nat) :
    removeAttachmentRows db trn [] = db := by
  unfold removeAttachmentRows
  rw [List.filter_eq_self.mpr (fun a _ => by simp)]

theorem mkAttachmentRows_filter_hash (trn : Nat) (hsh : String)
    (vs : List PendingAttachment) : ∀ sid,
    ((mkAttachmentRows sid trn vs).filter
      (fun a => a.trnId == trn && a.fileHash == hsh)).length =
      vs.countP (fun v => v.fileHash == hsh) := by
  induction vs with
  | nil => intro sid; rfl
  | cons v vs ih =>
    intro sid
    simp only [mkAttachmentRows, List.filter_cons, List.countP_cons]
    by_cases hv : (v.fileHash == hsh) = true <;>
      simp [hv, ih (sid + 1)]

/-- The database after the attachment-intake step: the dedupe loop's
surviving values batch-inserted as rows. -/
def dedupedDB (db : DB) (trn sid : Nat) (files : List UploadedFile)
    (disk : List String) : DB :=
  { db with
    attachments := db.attachments ++
      mkAttachmentRows sid trn (dedupeLoop db.attachments trn files disk).1 }

theorem attCount_intake (db : DB) (trn : Nat) (hsh : String) (sid : Nat)
    (files : List UploadedFile) (disk : List String) :
    attCount (dedupedDB db trn sid files disk) trn hsh =
      attCount db trn hsh +
        files.countP (fun f => (getFileHash f.content == hsh) &&
          !isDupFile db.attachments trn (getFileHash f.content)) := by
  unfold attCount dedupedDB
  simp only [List.filter_append, List.length_append]
  rw [mkAttachmentRows_filter_hash trn hsh _ sid, dedupeLoop_fst, List.countP_map]
  rw [show ((fun v : PendingAttachment => v.fileHash == hsh) ∘ toPending) =
      (fun f : UploadedFile => getFileHash f.content == hsh) from rfl]
  rw [List.countP_filter]

theorem dup_contributes_nothing (att : List AttachmentRow) (trn : Nat) (hsh : String)
    (files : List UploadedFile) (hdup : isDupFile att trn hsh = true) :
    files.countP (fun f => (getFileHash f.content == hsh) &&
      !isDupFile att trn (getFileHash f.content)) = 0 := by
  rw [List.countP_eq_zero]
  intro f hf hp
  simp only [Bool.and_eq_true, Bool.not_eq_true] at hp
  have heq : getFileHash f.content = hsh := by
    have := hp.1
    exact beq_iff_eq.mp this
  rw [heq] at hp
  rw [hdup] at hp
  exact absurd hp.2 (by simp)

/-- Claim C1 (amended): the dedupe check compares each uploaded file
against the attachment rows already stored for the transaction, so:
re-uploading content whose (transaction, content-hash) pair is already
stored adds no record and the duplicate file is deleted from disk; and
the at-most-one-record-per-pair invariant is preserved provided no two
files within a single upload batch share the same content.  (Duplicates
inside one batch are each stored — see the counterexample.) -/
theorem attachment_dedupe_across_requests (st : St) (req : UpdateRequest)
    (hq : truthyNat req.trnId = true)
    (hown : ownsTransaction st.db (req.trnId.getD 0) req.userId = true)
    (hnofld : hasFieldUpdates req = false)
    (hdel : req.deleteAttachmentIds = none)
    (hne : req.files ≠ [])
    (hhash : (req.files.map (fun f => getFileHash f.content)).Nodup)
    (hfn : (req.files.map (·.path)).Nodup)
    (hfresh : ∀ f ∈ req.files, f.path ∉ st.disk) :
    (updateTransaction st req false).1 = ApiResult.success 200 ∧
    (∀ h, attCount st.db (req.trnId.getD 0) h ≤ 1 →
      attCount (updateTransaction st req false).2.db (req.trnId.getD 0) h ≤ 1) ∧
    (∀ f ∈ req.files,
      isDupFile st.db.attachments (req.trnId.getD 0) (getFileHash f.content) = true →
      attCount (updateTransaction st req false).2.db (req.trnId.getD 0)
          (getFileHash f.content) =
        attCount st.db (req.trnId.getD 0) (getFileHash f.content) ∧
      f.path ∉ (updateTransaction st req false).2.disk) := by
  have hfilterF : st.db.attachments.filter
      (fun a => a.trnId == req.trnId.getD 0 &&
        ([] : List Nat).contains a.attachmentId) = [] := by
    rw [List.filter_eq_nil_iff]
    intro a _
    simp
  have hred : updateTransaction st req false =
      (ApiResult.success 200,
       ⟨dedupedDB st.db (req.trnId.getD 0) (nextAttachmentId st.db) req.files
          (st.disk ++ req.files.map (·.path)),
        (dedupeLoop st.db.attachments (req.trnId.getD 0) req.files
          (st.disk ++ req.files.map (·.path))).2⟩) := by
    simp only [updateTransaction, hdel, normalizeDeleteIds]
    rw [if_neg (by simp [hq]), if_neg (by rintro ⟨-, -, h3⟩; exact hne h3),
      if_neg (by simp [hown])]
    rw [show (if hasFieldUpdates req = true then
        applyFieldUpdates st.db (req.trnId.getD 0) req else st.db) = st.db
      from if_neg (by simp [hnofld])]
    rw [hfilterF, removeAttachmentRows_nil]
    simp only [List.map_nil, eraseAll, List.foldl_nil]
    rw [if_neg (by simp)]
    rfl
  refine ⟨by rw [hred], ?_, ?_⟩
  · intro h hle
    rw [hred]
    show attCount (dedupedDB st.db (req.trnId.getD 0) (nextAttachmentId st.db) req.files
      (st.disk ++ req.files.map (·.path))) (req.trnId.getD 0) h ≤ 1
    rw [attCount_intake]
    by_cases hdup : isDupFile st.db.attachments (req.trnId.getD 0) h = true
    · rw [dup_contributes_nothing _ _ _ _ hdup]
      omega
    · have hle1 : req.files.countP (fun f => (getFileHash f.content == h) &&
          !isDupFile st.db.attachments (req.trnId.getD 0) (getFileHash f.content)) ≤
            req.files.countP (fun f => getFileHash f.content == h) := by
        apply List.countP_mono_left
        intro x _ hpx
        simp only [Bool.and_eq_true] at hpx
        exact hpx.1
      have hle2 : req.files.countP (fun f => getFileHash f.content == h) ≤ 1 := by
        rw [← count_map_eq_countP (fun f => getFileHash f.content) req.files h]
        exact List.nodup_iff_count_le_one.mp hhash h
      have hc0 : attCount st.db (req.trnId.getD 0) h = 0 := by
        have hnp : ¬(0 < (st.db.attachments.filter
            (fun a => a.trnId == req.trnId.getD 0 && a.fileHash == h)).length) :=
          fun hp => hdup ((isDupFile_iff st.db.attachments (req.trnId.getD 0) h).mpr hp)
        unfold attCount
        omega
      omega
  · intro f hf hdupf
    constructor
    · rw [hred]
      show attCount (dedupedDB st.db (req.trnId.getD 0) (nextAttachmentId st.db) req.files
        (st.disk ++ req.files.map (·.path))) (req.trnId.getD 0) (getFileHash f.content) = _
      rw [attCount_intake, dup_contributes_nothing _ _ _ _ hdupf]
      omega
    · rw [hred]
      show f.path ∉ (dedupeLoop st.db.attachments (req.trnId.getD 0) req.files
        (st.disk ++ req.files.map (·.path))).2
      rw [dedupeLoop_snd, ← List.count_eq_zero, count_eraseAll, List.count_append]
      have hB0 : st.disk.count f.path = 0 := List.count_eq_zero.mpr (hfresh f hf)
      have hF1 : (req.files.map (·.path)).count f.path ≤ 1 :=
        List.nodup_iff_count_le_one.mp hfn f.path
      have hdupmem : f.path ∈ (req.files.filter (fun g =>
          isDupFile st.db.attachments (req.trnId.getD 0) (getFileHash g.content))).map
            (·.path) :=
        List.mem_map.mpr ⟨f, List.mem_filter.mpr ⟨hf, hdupf⟩, rfl⟩
      rw [← List.count_pos_iff] at hdupmem
      omega

/-- A store where transaction 1 already has content with hash OLD. -/
def c1WitState : St :=
  ⟨⟨[⟨1, 1, 1, 50, none, "2024-01-01"⟩], [⟨1, "Food", "expense"⟩],
    [⟨1, 1, "old.png", "up/old.png", "image/png", 4, "OLD"⟩]⟩, ["up/old.png"]⟩

/-- An Update re-uploading the already-stored content. -/
def c1WitReq : UpdateRequest :=
  ⟨1, some 1, none, none, none, none, none,
   [⟨"up/dup.png", "dup.png", "image/png", 4, "OLD"⟩]⟩

/-- Witness for the amended C1: re-uploading stored content adds no record
for the (transaction, hash) pair and the incoming duplicate file is gone
from disk. -/
theorem attachment_dedupe_across_requests_witness :
    attCount (updateTransaction c1WitState c1WitReq false).2.db 1 "OLD" =
      attCount c1WitState.db 1 "OLD" ∧
    "up/dup.png" ∉ (updateTransaction c1WitState c1WitReq false).2.disk :=
  (attachment_dedupe_across_requests c1WitState c1WitReq (by decide) (by decide)
    (by decide) rfl (by decide) (by decide) (by decide) (by decide)).2.2
    ⟨"up/dup.png", "dup.png", "image/png", 4, "OLD"⟩ (by decide) (by decide)

end FinFlow
